import Mathlib

/-!
Shallow embedding of the trend scoring and classification pipeline of the
FashionAIApi repository: `fashion-trends/scripts/generateTrends.js` and
`node-trends-api/services/trendsService.js` / `trendFormatter.js`.
JavaScript numbers are modelled by exact rationals; `Number(...)` results
that are NaN are modelled by `none : Option ℚ`.
-/

/-- JS `Math.round`: round half toward positive infinity, `⌊x + 1/2⌋`. -/
def jsRound (q : ℚ) : ℤ := ⌊q + 1/2⌋

/-- JS `String.prototype.toLowerCase`, per-character lowering. -/
def jsToLower (s : String) : String := ⟨s.data.map Char.toLower⟩

/-- Substring occurrence over char lists (helper for JS `String.includes`). -/
def charsContains (sub : List Char) : List Char → Bool
  | [] => sub.isEmpty
  | c :: t => sub.isPrefixOf (c :: t) || charsContains sub t

/-- JS `s.includes(sub)`. -/
def jsIncludes (s sub : String) : Bool := charsContains sub.toList s.toList

/-- Result of a JS `Number(...)` conversion: `none` models NaN. -/
abbrev JsNum := Option ℚ

/--
One Google-Trends timeline sample, by upstream field shape:
`nested ex v` models an entry where `d.values?.[0]` is a non-null object
with optional `extracted_value` field `ex` and optional `value` field `v`;
`flat v ex` models an entry without `values[0]`, with optional top-level
`value` field `v` and optional top-level `extracted_value` field `ex`
(`flat none none` is an entry with neither field).
-/
inductive Entry
  | nested (extracted : Option JsNum) (value : Option JsNum)
  | flat (value : Option JsNum) (extracted : Option JsNum)
deriving DecidableEq, Repr

/--
The `.map` callback of the numeric extraction in
`generateTrends.js` (`fetchTrendMetrics`, lines 338-347):
for a nested entry, `Number(v.extracted_value)` if present, else
`Number(v.value ?? v)` (NaN when both absent, since `Number(object)` is NaN),
then NaN is coerced to 0 and the result clamped with `Math.max(0, n)`;
for a flat entry, `Number(d.value)` if present, else `Number(d.extracted_value)`
if present, else 0 — returned raw, without NaN/negative coercion.
-/
def gtMapEntry : Entry → JsNum
  | .nested ex v =>
    let n : JsNum :=
      match ex with
      | some x => x
      | none =>
        match v with
        | some x => x
        | none => none
    match n with
    | none => some 0
    | some q => some (max 0 q)
  | .flat (some x) _ => x
  | .flat none (some x) => x
  | .flat none none => some 0

/--
The value series extracted by `generateTrends.js`: map each timeline entry
through `gtMapEntry`, then `.filter((v) => !Number.isNaN(v) && v >= 0)`.
-/
def gtValues (timeline : List Entry) : List ℚ :=
  (timeline.map gtMapEntry).filterMap fun n =>
    match n with
    | some q => if 0 ≤ q then some q else none
    | none => none

/--
The `.map` callback of `trendsService.js` (`getInterestForKeyword`,
lines 30-44): for a nested entry, `Number(v.extracted_value)` if present,
else `Number(v.value)` if present, else `Number(v)` (NaN), with NaN coerced
to 0 but no negative clamp; for a flat entry, `Number(d.extracted_value)`
first, then `Number(d.value)`, else 0.
-/
def tsMapEntry : Entry → JsNum
  | .nested ex v =>
    let n : JsNum :=
      match ex with
      | some x => x
      | none =>
        match v with
        | some x => x
        | none => none
    match n with
    | none => some 0
    | some q => some q
  | .flat _ (some x) => x
  | .flat (some x) none => x
  | .flat none none => some 0

/-- The value series extracted by `trendsService.js` (same final filter). -/
def tsValues (timeline : List Entry) : List ℚ :=
  (timeline.map tsMapEntry).filterMap fun n =>
    match n with
    | some q => if 0 ≤ q then some q else none
    | none => none

/-- The per-keyword record produced by `fetchTrendMetrics` in `generateTrends.js`. -/
structure Metrics where
  keyword : String
  averageInterest : ℚ
  trendSlope : ℚ
  score : ℤ
deriving DecidableEq, Repr

/-- `values.reduce((a, b) => a + b, 0) / values.length`. -/
def gtAverageInterest (values : List ℚ) : ℚ := values.sum / values.length

/-- `values.length > 1 ? (last - first) / (values.length - 1) : 0`. -/
def gtTrendSlope (values : List ℚ) : ℚ :=
  if 1 < values.length then
    (values.getLastD 0 - values.headD 0) / ((values.length : ℚ) - 1)
  else 0

/-- `Math.round(Math.min(100, Math.max(0, averageInterest + Math.max(0, trendSlope) * 2)))`. -/
def gtScore (values : List ℚ) : ℤ :=
  jsRound (min 100 (max 0 (gtAverageInterest values + max 0 (gtTrendSlope values) * 2)))

/-- `{keyword, averageInterest: 0, trendSlope: 0, score: 0}`. -/
def zeroMetrics (kw : String) : Metrics := ⟨kw, 0, 0, 0⟩

/--
The metrics record built in `generateTrends.js` from a non-rejected value
series (lines 350-367): zero record when the series is empty, otherwise
average rounded to one decimal, slope rounded to two decimals, and the
clamped rounded score.
-/
def fetchMetricsFromValues (kw : String) (values : List ℚ) : Metrics :=
  if values.length = 0 then zeroMetrics kw
  else
    { keyword := kw
      averageInterest := (jsRound (gtAverageInterest values * 10) : ℚ) / 10
      trendSlope := (jsRound (gtTrendSlope values * 100) : ℚ) / 100
      score := gtScore values }

/--
The `.then` branch of `fetchTrendMetrics` (lines 330-367): an empty timeline
yields the zero record, otherwise the series is extracted and scored.
-/
def fetchMetricsFromTimeline (kw : String) (timeline : List Entry) : Metrics :=
  if timeline.length = 0 then zeroMetrics kw
  else fetchMetricsFromValues kw (gtValues timeline)

/--
`fetchTrendMetrics` of `generateTrends.js` as a function of the upstream
fetch outcome: the `.catch` branch (lines 369-372) converts any rejection
into the zero record, so the function is total.
-/
def fetchTrendMetrics (kw : String) (outcome : Except String (List Entry)) : Metrics :=
  match outcome with
  | .ok timeline => fetchMetricsFromTimeline kw timeline
  | .error _ => zeroMetrics kw

/-- The fixed keyword universe `KEYWORDS` of `generateTrends.js` (lines 13-138). -/
def KEYWORDS : List String := [
  "office outfit women",
  "work blazer outfit",
  "business casual women",
  "pencil skirt outfit",
  "blazer dress",
  "tailored trousers",
  "oversized blazer",
  "shirt dress",
  "midi dress",
  "trench coat outfit",
  "minimalist outfit",
  "quiet luxury fashion",
  "capsule wardrobe",
  "casual outfit women",
  "weekend outfit",
  "mom jeans",
  "wide leg jeans",
  "graphic tee outfit",
  "hoodie dress",
  "cargo pants women",
  "striped shirt",
  "denim skirt",
  "bucket hat",
  "crossbody bag",
  "oversized fit",
  "street style fashion",
  "y2k fashion",
  "date night outfit",
  "slip dress",
  "satin dress",
  "bodycon dress",
  "corset top",
  "sheer top",
  "halter top",
  "off shoulder top",
  "wrap dress",
  "gold jewelry",
  "chain bag",
  "statement earrings",
  "birthday outfit women",
  "party dress",
  "sequin dress",
  "animal print",
  "platform shoes",
  "pearl necklace",
  "romper",
  "puff sleeve top",
  "bridal gown",
  "wedding dress bride",
  "bride outfit",
  "bridal dress",
  "bridal wear",
  "bride lehenga",
  "bridal saree",
  "marriage dress",
  "bride jewelry",
  "festival outfit",
  "concert outfit",
  "coquette outfit",
  "cottagecore dress",
  "ballet core fashion",
  "color block fashion",
  "print mixing",
  "maxi skirt outfit",
  "cropped jacket",
  "boho dress",
  "brunch outfit women",
  "linen summer dress",
  "square neck top",
  "tennis skirt",
  "cropped cardigan",
  "layered necklace outfit",
  "coastal grandmother style",
  "sundress outfit",
  "vacation outfit women",
  "resort wear women",
  "beach outfit",
  "wide leg pants",
  "maxi dress",
  "summer dress outfit",
  "athleisure outfit",
  "joggers outfit",
  "gym outfit women",
  "leggings outfit",
  "sports bra outfit",
  "workout outfit",
  "formal outfit women",
  "gala dress",
  "cocktail dress",
  "vest outfit",
  "monochrome outfit",
  "leather jacket",
  "mary jane shoes",
  "sustainable fashion",
  "neutral tone outfit",
  "straight leg jeans",
  "cargo skirt",
  "ribbed knit",
  "knit sweater",
  "bomber jacket",
  "cold shoulder top",
  "trending outfits 2025",
  "minimalist fashion"
]

/-- The `OCCASION_MAP` keyword→occasion table of `generateTrends.js` (lines 157-282). -/
def OCCASION_MAP : List (String × String) := [
  ("office outfit women", "work and office"),
  ("work blazer outfit", "work and office"),
  ("business casual women", "work and office"),
  ("pencil skirt outfit", "work and office"),
  ("blazer dress", "work and office"),
  ("tailored trousers", "work and office"),
  ("oversized blazer", "work and office"),
  ("shirt dress", "work and office"),
  ("midi dress", "work and office"),
  ("trench coat outfit", "work and office"),
  ("minimalist outfit", "work and office"),
  ("quiet luxury fashion", "work and office"),
  ("capsule wardrobe", "work and office"),
  ("casual outfit women", "casual"),
  ("weekend outfit", "casual"),
  ("mom jeans", "casual"),
  ("wide leg jeans", "casual"),
  ("graphic tee outfit", "casual"),
  ("hoodie dress", "casual"),
  ("cargo pants women", "casual"),
  ("striped shirt", "casual"),
  ("denim skirt", "casual"),
  ("bucket hat", "casual"),
  ("crossbody bag", "casual"),
  ("oversized fit", "casual"),
  ("street style fashion", "casual"),
  ("y2k fashion", "casual"),
  ("straight leg jeans", "casual"),
  ("cargo skirt", "casual"),
  ("cold shoulder top", "casual"),
  ("date night outfit", "date night"),
  ("slip dress", "date night"),
  ("satin dress", "date night"),
  ("bodycon dress", "date night"),
  ("corset top", "date night"),
  ("sheer top", "date night"),
  ("halter top", "date night"),
  ("off shoulder top", "date night"),
  ("wrap dress", "date night"),
  ("gold jewelry", "date night"),
  ("chain bag", "date night"),
  ("statement earrings", "date night"),
  ("birthday outfit women", "birthday party"),
  ("party dress", "birthday party"),
  ("sequin dress", "birthday party"),
  ("animal print", "birthday party"),
  ("platform shoes", "birthday party"),
  ("pearl necklace", "birthday party"),
  ("romper", "birthday party"),
  ("puff sleeve top", "birthday party"),
  ("bridal gown", "marriage and bride"),
  ("wedding dress bride", "marriage and bride"),
  ("bride outfit", "marriage and bride"),
  ("bridal dress", "marriage and bride"),
  ("bridal wear", "marriage and bride"),
  ("bride lehenga", "marriage and bride"),
  ("bridal saree", "marriage and bride"),
  ("marriage dress", "marriage and bride"),
  ("bride jewelry", "marriage and bride"),
  ("festival outfit", "festivals and events"),
  ("concert outfit", "festivals and events"),
  ("coquette outfit", "festivals and events"),
  ("cottagecore dress", "festivals and events"),
  ("ballet core fashion", "festivals and events"),
  ("color block fashion", "festivals and events"),
  ("print mixing", "festivals and events"),
  ("maxi skirt outfit", "festivals and events"),
  ("cropped jacket", "festivals and events"),
  ("boho dress", "festivals and events"),
  ("brunch outfit women", "brunch and cafes"),
  ("linen summer dress", "brunch and cafes"),
  ("square neck top", "brunch and cafes"),
  ("tennis skirt", "brunch and cafes"),
  ("cropped cardigan", "brunch and cafes"),
  ("layered necklace outfit", "brunch and cafes"),
  ("coastal grandmother style", "brunch and cafes"),
  ("sundress outfit", "brunch and cafes"),
  ("vacation outfit women", "vacation"),
  ("resort wear women", "vacation"),
  ("beach outfit", "vacation"),
  ("wide leg pants", "vacation"),
  ("maxi dress", "vacation"),
  ("summer dress outfit", "vacation"),
  ("athleisure outfit", "gym and athleisure"),
  ("joggers outfit", "gym and athleisure"),
  ("gym outfit women", "gym and athleisure"),
  ("leggings outfit", "gym and athleisure"),
  ("sports bra outfit", "gym and athleisure"),
  ("workout outfit", "gym and athleisure"),
  ("formal outfit women", "formal events"),
  ("gala dress", "formal events"),
  ("cocktail dress", "formal events"),
  ("vest outfit", "formal events"),
  ("monochrome outfit", "formal events"),
  ("leather jacket", "formal events"),
  ("mary jane shoes", "formal events"),
  ("sustainable fashion", "casual"),
  ("neutral tone outfit", "work and office"),
  ("ribbed knit", "casual"),
  ("knit sweater", "casual"),
  ("bomber jacket", "casual"),
  ("trending outfits 2025", "casual"),
  ("minimalist fashion", "work and office")
]

/--
`getOccasion` of `generateTrends.js` (lines 284-300): exact lookup in
`OCCASION_MAP` on the lowercased keyword first, then the ordered
substring-fallback rules in source order, defaulting to `"casual"`.
-/
def getOccasion (keyword : String) : String :=
  let lower := jsToLower keyword
  match OCCASION_MAP.lookup lower with
  | some v => v
  | none =>
    if jsIncludes lower "blazer" || jsIncludes lower "trousers" || jsIncludes lower "office" then
      "work and office"
    else if jsIncludes lower "jogger" || jsIncludes lower "athleisure" || jsIncludes lower "sport" then
      "gym and athleisure"
    else if jsIncludes lower "party" || jsIncludes lower "sequin" || jsIncludes lower "glitter" then
      "birthday party"
    else if jsIncludes lower "bridal" || jsIncludes lower "bride" || jsIncludes lower "marriage" ||
        jsIncludes lower "lehenga" || jsIncludes lower "saree" then
      "marriage and bride"
    else if jsIncludes lower "formal" || jsIncludes lower "elegant" then
      "formal events"
    else if jsIncludes lower "beach" || jsIncludes lower "vacation" || jsIncludes lower "resort" then
      "vacation"
    else if jsIncludes lower "brunch" || jsIncludes lower "cafe" || jsIncludes lower "sunday" then
      "brunch and cafes"
    else if jsIncludes lower "festival" || jsIncludes lower "concert" || jsIncludes lower "boho" then
      "festivals and events"
    else if jsIncludes lower "date" || jsIncludes lower "night" || jsIncludes lower "dinner" then
      "date night"
    else
      "casual"

/--
`SEASON_KEYWORDS` (identical in `generateTrends.js` lines 149-154 and
`trendFormatter.js` lines 6-11), in object-literal insertion order, which
is the iteration order of `Object.entries`.
-/
def SEASON_KEYWORDS : List (String × List String) := [
  ("summer", ["summer", "linen", "sundress", "beach", "resort"]),
  ("winter", ["winter", "coat", "wool", "layered", "boots"]),
  ("fall", ["fall", "autumn", "sweater", "jacket", "plaid"]),
  ("spring", ["spring", "floral", "pastel", "light"])
]

/--
The calendar fallback of `getSeason` (0-indexed month from
`new Date().getMonth()`): months 2-4 spring, 5-7 summer, 8-10 fall,
else winter.
-/
def monthSeason (month : ℕ) : String :=
  if 2 ≤ month ∧ month ≤ 4 then "spring"
  else if 5 ≤ month ∧ month ≤ 7 then "summer"
  else if 8 ≤ month ∧ month ≤ 10 then "fall"
  else "winter"

/-- The `for (const [season, terms] of Object.entries(...))` scan of `getSeason`. -/
def seasonScan (lower : String) : List (String × List String) → Option String
  | [] => none
  | (season, terms) :: rest =>
    if terms.any (fun t => jsIncludes lower t) then some season
    else seasonScan lower rest

/--
`getSeason` of `generateTrends.js` (lines 302-312) / `trendFormatter.js`
(lines 13-23); the evaluation month (`new Date().getMonth()`) is passed
explicitly.
-/
def getSeason (keyword : String) (month : ℕ) : String :=
  match seasonScan (jsToLower keyword) SEASON_KEYWORDS with
  | some s => s
  | none => monthSeason month

/--
Stable insertion step for sorting by a score projection in descending
order: the new element goes after every already-placed element with an
equal or higher score (the stability guarantee of JS `Array.prototype.sort`
with comparator `(a, b) => b.score - a.score`).
-/
def insertScoreDesc (score : α → ℤ) (m : α) : List α → List α
  | [] => [m]
  | x :: xs =>
    if score m ≤ score x then x :: insertScoreDesc score m xs
    else m :: x :: xs

/-- Stable sort by a score projection, descending (JS `.sort((a, b) => b.score - a.score)`). -/
def sortScoreDesc (score : α → ℤ) (l : List α) : List α :=
  l.foldl (fun acc m => insertScoreDesc score m acc) []

/--
Lookup in the JS `Map` built by `new Map(metricsList.map((m) => [m.keyword, m]))`:
for a duplicated key the later entry wins.
-/
def mapGet : List Metrics → String → Option Metrics
  | [], _ => none
  | m :: rest, kw =>
    match mapGet rest kw with
    | some r => some r
    | none => if m.keyword == kw then some m else none

/--
The always-emit aggregation of `main` in `generateTrends.js`
(lines 494-508) as a function of the per-keyword fetch outcome:
fetch metrics for every keyword, index them by keyword, re-emit one
record per keyword of `KEYWORDS` (zero record default), and sort by
score descending.
-/
def mainToOutput (fetchResult : String → Except String (List Entry)) : List Metrics :=
  let metricsList := KEYWORDS.map fun kw => fetchTrendMetrics kw (fetchResult kw)
  let toOutput := KEYWORDS.map fun kw => (mapGet metricsList kw).getD (zeroMetrics kw)
  sortScoreDesc Metrics.score toOutput

/-- The per-keyword record of `trendsService.js`: `{ keyword, score }`. -/
structure TrendResult where
  keyword : String
  score : ℤ
deriving DecidableEq, Repr

/-- `values.length ? Math.max(...values) : 0`. -/
def jsMaxList : List ℚ → ℚ
  | [] => 0
  | x :: xs => xs.foldl max x

/-- `Math.round(Math.min(100, Math.max(0, max)))` of `trendsService.js` (line 47). -/
def tsScoreFromValues (values : List ℚ) : ℤ :=
  jsRound (min 100 (max 0 (jsMaxList values)))

/--
`getInterestForKeyword` of `trendsService.js` (lines 11-54) as a function
of the upstream fetch outcome; the `.catch` branch yields score 0.
-/
def getInterestForKeyword (kw : String) (outcome : Except String (List Entry)) : TrendResult :=
  match outcome with
  | .error _ => ⟨kw, 0⟩
  | .ok timeline =>
    if timeline.length = 0 then ⟨kw, 0⟩
    else ⟨kw, tsScoreFromValues (tsValues timeline)⟩

/--
`getValidatedTrends` of `trendsService.js` (lines 60-67): fetch every
keyword, keep results with `score >= threshold`, sort by score descending
(stable).
-/
def getValidatedTrends (keywords : List String)
    (fetch : String → Except String (List Entry)) (threshold : ℤ) : List TrendResult :=
  sortScoreDesc TrendResult.score
    ((keywords.map fun kw => getInterestForKeyword kw (fetch kw)).filter
      fun r => threshold ≤ r.score)

/--
Modelled from the spec: the ScoredTrend numeric fields as the spec defines
them (`averageInterest` the mean of the series to one decimal place,
`trendSlope` `(last − first)/(count − 1)` when `count > 1` else `0` to two
decimal places, `score = round(clamp(averageInterest + max(0, trendSlope) * 2,
0, 100))`), the refinement target the scorer of `generateTrends.js` is
compared against.
-/
def specTimeSeriesMetrics (kw : String) (values : List ℚ) : Metrics :=
  let avg : ℚ := values.sum / values.length
  let slope : ℚ :=
    if 1 < values.length then
      (values.getLastD 0 - values.headD 0) / ((values.length : ℚ) - 1)
    else 0
  { keyword := kw
    averageInterest := (jsRound (avg * 10) : ℚ) / 10
    trendSlope := (jsRound (slope * 100) : ℚ) / 100
    score := jsRound (min 100 (max 0 (avg + max 0 slope * 2))) }

/--
All substrings probed by the fallback rules of `getOccasion`, in rule
order.
-/
def FALLBACK_CUES : List String :=
  ["blazer", "trousers", "office",
   "jogger", "athleisure", "sport",
   "party", "sequin", "glitter",
   "bridal", "bride", "marriage", "lehenga", "saree",
   "formal", "elegant",
   "beach", "vacation", "resort",
   "brunch", "cafe", "sunday",
   "festival", "concert", "boho",
   "date", "night", "dinner"]


/--
The coercion applied by `generateTrends.js` to a nested-shape entry:
`extracted_value` preferred, NaN coerced to 0, negatives clamped to 0.
-/
def nestedCoerceGT (ex v : Option JsNum) : ℚ :=
  match ex with
  | some (some q) => max 0 q
  | some none => 0
  | none =>
    match v with
    | some (some q) => max 0 q
    | some none => 0
    | none => 0

/-! ### Helper lemmas -/

theorem jsRound_clamp_nonneg (x : ℚ) : 0 ≤ jsRound (min 100 (max 0 x)) := by
  have h0 : (0 : ℚ) ≤ min 100 (max 0 x) := le_min (by norm_num) (le_max_left 0 x)
  exact Int.le_floor.mpr (by push_cast; linarith)

theorem jsRound_clamp_le (x : ℚ) : jsRound (min 100 (max 0 x)) ≤ 100 := by
  have h1 : min 100 (max 0 x) ≤ 100 := min_le_left _ _
  have h2 : (⌊min 100 (max 0 x) + 1/2⌋ : ℤ) ≤ ⌊(100 : ℚ) + 1/2⌋ :=
    Int.floor_le_floor (by linarith)
  have h3 : (⌊(100 : ℚ) + 1/2⌋ : ℤ) = 100 := by norm_num
  calc jsRound (min 100 (max 0 x)) ≤ ⌊(100 : ℚ) + 1/2⌋ := h2
    _ = 100 := h3

theorem le_foldl_max (xs : List ℚ) : ∀ x : ℚ, x ≤ xs.foldl max x := by
  induction xs with
  | nil => intro x; exact le_refl x
  | cons y ys ih =>
    intro x
    exact le_trans (le_max_left x y) (ih (max x y))

theorem mem_le_foldl_max (xs : List ℚ) : ∀ x v : ℚ, v ∈ xs → v ≤ xs.foldl max x := by
  induction xs with
  | nil => intro x v hv; cases hv
  | cons y ys ih =>
    intro x v hv
    rcases List.mem_cons.mp hv with h | h
    · subst h
      exact le_trans (le_max_right x v) (le_foldl_max ys (max x v))
    · exact ih (max x y) v h

theorem foldl_max_mem (xs : List ℚ) : ∀ x : ℚ, xs.foldl max x ∈ x :: xs := by
  induction xs with
  | nil => intro x; exact List.mem_singleton.mpr rfl
  | cons y ys ih =>
    intro x
    have h := ih (max x y)
    rcases List.mem_cons.mp h with h | h
    · rcases max_choice x y with hm | hm
      · exact List.mem_cons.mpr (Or.inl (h.trans hm))
      · exact List.mem_cons.mpr (Or.inr (List.mem_cons.mpr (Or.inl (h.trans hm))))
    · exact List.mem_cons.mpr (Or.inr (List.mem_cons.mpr (Or.inr h)))

theorem jsMaxList_mem (values : List ℚ) (h : values ≠ []) : jsMaxList values ∈ values := by
  cases values with
  | nil => exact absurd rfl h
  | cons x xs => exact foldl_max_mem xs x

theorem le_jsMaxList (values : List ℚ) (v : ℚ) (hv : v ∈ values) : v ≤ jsMaxList values := by
  cases values with
  | nil => cases hv
  | cons x xs =>
    rcases List.mem_cons.mp hv with h | h
    · subst h; exact le_foldl_max xs v
    · exact mem_le_foldl_max xs x v h

section SortLemmas

variable {α : Type} (score : α → ℤ)

theorem insertScoreDesc_perm (m : α) (l : List α) :
    (insertScoreDesc score m l).Perm (m :: l) := by
  induction l with
  | nil => rfl
  | cons x xs ih =>
    unfold insertScoreDesc
    split
    · exact (ih.cons x).trans (List.Perm.swap m x xs)
    · rfl

theorem sortScoreDesc_foldl_perm (l : List α) :
    ∀ acc : List α, (l.foldl (fun acc m => insertScoreDesc score m acc) acc).Perm (acc ++ l) := by
  induction l with
  | nil => intro acc; simp
  | cons m t ih =>
    intro acc
    have h1 : (t.foldl (fun acc m => insertScoreDesc score m acc)
        (insertScoreDesc score m acc)).Perm (insertScoreDesc score m acc ++ t) := ih _
    have h2 : (insertScoreDesc score m acc ++ t).Perm ((m :: acc) ++ t) :=
      (insertScoreDesc_perm score m acc).append_right t
    have h3 : ((m :: acc) ++ t).Perm (acc ++ m :: t) := List.perm_middle.symm
    exact (h1.trans h2).trans h3

theorem sortScoreDesc_perm (l : List α) : (sortScoreDesc score l).Perm l := by
  have h := sortScoreDesc_foldl_perm score l []
  simpa [sortScoreDesc] using h

theorem insertScoreDesc_pairwise (m : α) (l : List α)
    (h : l.Pairwise (fun a b => score b ≤ score a)) :
    (insertScoreDesc score m l).Pairwise (fun a b => score b ≤ score a) := by
  induction l with
  | nil => simp [insertScoreDesc]
  | cons x xs ih =>
    rw [List.pairwise_cons] at h
    unfold insertScoreDesc
    split
    · rename_i hc
      rw [List.pairwise_cons]
      refine ⟨?_, ih h.2⟩
      intro y hy
      rcases List.mem_cons.mp ((insertScoreDesc_perm score m xs).mem_iff.mp hy) with h' | h'
      · subst h'; exact hc
      · exact h.1 y h'
    · rename_i hc
      push_neg at hc
      rw [List.pairwise_cons]
      refine ⟨?_, List.pairwise_cons.mpr h⟩
      intro y hy
      rcases List.mem_cons.mp hy with h' | h'
      · subst h'; exact le_of_lt hc
      · exact le_trans (h.1 y h') (le_of_lt hc)

theorem sortScoreDesc_foldl_pairwise (l : List α) :
    ∀ acc : List α, acc.Pairwise (fun a b => score b ≤ score a) →
      (l.foldl (fun acc m => insertScoreDesc score m acc) acc).Pairwise
        (fun a b => score b ≤ score a) := by
  induction l with
  | nil => intro acc h; simpa using h
  | cons m t ih =>
    intro acc h
    exact ih _ (insertScoreDesc_pairwise score m acc h)

theorem sortScoreDesc_pairwise (l : List α) :
    (sortScoreDesc score l).Pairwise (fun a b => score b ≤ score a) :=
  sortScoreDesc_foldl_pairwise score l [] (List.Pairwise.nil)

theorem insertScoreDesc_filter (s : ℤ) (m : α) (l : List α)
    (h : l.Pairwise (fun a b => score b ≤ score a)) :
    (insertScoreDesc score m l).filter (fun r => score r == s)
      = l.filter (fun r => score r == s) ++ if score m == s then [m] else [] := by
  induction l with
  | nil =>
    simp only [insertScoreDesc, List.filter_nil, List.nil_append]
    by_cases hm : score m == s
    · simp [List.filter, hm]
    · simp only [List.filter, hm]; simp [Bool.eq_false_iff.mpr hm]
  | cons x xs ih =>
    rw [List.pairwise_cons] at h
    unfold insertScoreDesc
    split
    · rename_i hc
      rw [List.filter_cons, List.filter_cons, ih h.2]
      by_cases hx : score x == s
      · simp [hx]
      · simp [hx]
    · rename_i hc
      push_neg at hc
      by_cases hm : score m == s
      · have hs : s = score m := (beq_iff_eq.mp hm).symm
        have hnil : (x :: xs).filter (fun r => score r == s) = [] := by
          rw [List.filter_eq_nil_iff]
          intro y hy
          have hle : score y ≤ score x := by
            rcases List.mem_cons.mp hy with h' | h'
            · subst h'; exact le_refl _
            · exact h.1 y h'
          have : score y < score m := lt_of_le_of_lt hle hc
          simp only [beq_iff_eq, hs]
          omega
        rw [List.filter_cons, hm, hnil]
        simp [hm]
      · rw [List.filter_cons]
        simp only [hm]
        simp [Bool.eq_false_iff.mpr hm]

theorem sortScoreDesc_foldl_filter (s : ℤ) (l : List α) :
    ∀ acc : List α, acc.Pairwise (fun a b => score b ≤ score a) →
      (l.foldl (fun acc m => insertScoreDesc score m acc) acc).filter (fun r => score r == s)
        = acc.filter (fun r => score r == s) ++ l.filter (fun r => score r == s) := by
  induction l with
  | nil => intro acc _; simp
  | cons m t ih =>
    intro acc h
    have h1 := ih (insertScoreDesc score m acc) (insertScoreDesc_pairwise score m acc h)
    rw [List.foldl_cons, h1, insertScoreDesc_filter score s m acc h, List.filter_cons]
    by_cases hm : score m == s
    · simp [hm]
    · simp [hm]

/-- Stability of the descending sort: samples with one given score keep
their relative input order. -/
theorem sortScoreDesc_filter_score (s : ℤ) (l : List α) :
    (sortScoreDesc score l).filter (fun r => score r == s)
      = l.filter (fun r => score r == s) := by
  have h := sortScoreDesc_foldl_filter score s l [] List.Pairwise.nil
  simpa [sortScoreDesc] using h

end SortLemmas

theorem fetchTrendMetrics_keyword (kw : String) (o : Except String (List Entry)) :
    (fetchTrendMetrics kw o).keyword = kw := by
  cases o with
  | error e => rfl
  | ok tl =>
    simp only [fetchTrendMetrics, fetchMetricsFromTimeline, fetchMetricsFromValues, zeroMetrics]
    split
    · rfl
    · split <;> rfl

theorem mapGet_eq_none (l : List Metrics) (kw : String)
    (h : ∀ m ∈ l, m.keyword ≠ kw) : mapGet l kw = none := by
  induction l with
  | nil => rfl
  | cons m rest ih =>
    have h1 : mapGet rest kw = none := ih fun x hx => h x (List.mem_cons.mpr (Or.inr hx))
    have h2 : m.keyword ≠ kw := h m (List.mem_cons.mpr (Or.inl rfl))
    simp [mapGet, h1, h2]

theorem mapGet_map_mem (kws : List String) (f : String → Metrics)
    (hf : ∀ k, (f k).keyword = k) (hnd : kws.Nodup) :
    ∀ kw ∈ kws, mapGet (kws.map f) kw = some (f kw) := by
  induction kws with
  | nil => intro kw hkw; cases hkw
  | cons a t ih =>
    rw [List.nodup_cons] at hnd
    intro kw hkw
    rcases List.mem_cons.mp hkw with h | h
    · subst h
      have hnone : mapGet (t.map f) kw = none := by
        apply mapGet_eq_none
        intro m hm
        rcases List.mem_map.mp hm with ⟨k, hk, rfl⟩
        rw [hf k]
        intro hkk
        exact hnd.1 (hkk ▸ hk)
      simp [mapGet, hnone, hf kw]
    · have := ih hnd.2 kw h
      simp [mapGet, this]

theorem seasonScan_eq_find (lower : String) (rules : List (String × List String)) :
    seasonScan lower rules
      = (rules.find? fun p => p.2.any fun t => jsIncludes lower t).map Prod.fst := by
  induction rules with
  | nil => rfl
  | cons p rest ih =>
    obtain ⟨season, terms⟩ := p
    by_cases h : terms.any (fun t => jsIncludes lower t) = true
    · simp [seasonScan, List.find?, h]
    · simp only [seasonScan, List.find?, h, if_neg]
      rw [ih]
      simp [Bool.not_eq_true] at h
      simp [h]

/-! ### Claim theorems -/

/--
C1: for every non-empty value series, `fetchTrendMetrics` computes
`averageInterest` as the mean of the values (one decimal place),
`trendSlope` as `(last − first)/(count − 1)` when `count > 1` and `0`
otherwise (two decimal places), and
`score = round(clamp(averageInterest + max(0, trendSlope) * 2, 0, 100))`;
in particular the series `[10, 20, 30]` yields averageInterest `20.0`,
trendSlope `10.0` and score `40`.
-/
theorem fetchMetrics_timeSeries_formula :
    (∀ kw (values : List ℚ), values ≠ [] →
      fetchMetricsFromValues kw values = specTimeSeriesMetrics kw values)
    ∧ fetchMetricsFromValues "summer dress outfit" [10, 20, 30]
        = { keyword := "summer dress outfit", averageInterest := 20,
            trendSlope := 10, score := 40 } := by
  constructor
  · intro kw values h
    have hlen : ¬ values.length = 0 := fun hl => h (List.length_eq_zero.mp hl)
    simp [fetchMetricsFromValues, specTimeSeriesMetrics, gtAverageInterest,
      gtTrendSlope, gtScore, hlen]
  · simp [fetchMetricsFromValues, specTimeSeriesMetrics, gtAverageInterest,
      gtTrendSlope, gtScore, jsRound, zeroMetrics]
    norm_num

/-- C1 witness: the formula theorem applied at the series `[7]`. -/
theorem fetchMetrics_timeSeries_formula_witness :
    fetchMetricsFromValues "gala dress" [(7 : ℚ)] = specTimeSeriesMetrics "gala dress" [7] :=
  fetchMetrics_timeSeries_formula.1 "gala dress" [7] (by decide)

/--
C2: for every keyword and fetch outcome, the score of both scoring paths
(the avg+slope scorer of `generateTrends.js` and the peak-interest scorer
of `trendsService.js`) lies in `[0, 100]`; integrality is by construction,
the score being `ℤ`-valued (it is a `Math.round` result).
-/
theorem score_bounded :
    ∀ kw (outcome : Except String (List Entry)),
      (0 ≤ (fetchTrendMetrics kw outcome).score ∧ (fetchTrendMetrics kw outcome).score ≤ 100)
      ∧ (0 ≤ (getInterestForKeyword kw outcome).score
          ∧ (getInterestForKeyword kw outcome).score ≤ 100) := by
  intro kw outcome
  constructor
  · cases outcome with
    | error e => simp [fetchTrendMetrics, zeroMetrics]
    | ok tl =>
      simp only [fetchTrendMetrics, fetchMetricsFromTimeline]
      split
      · simp [zeroMetrics]
      · simp only [fetchMetricsFromValues]
        split
        · simp [zeroMetrics]
        · simp only [gtScore]
          exact ⟨jsRound_clamp_nonneg _, jsRound_clamp_le _⟩
  · cases outcome with
    | error e => simp [getInterestForKeyword]
    | ok tl =>
      simp only [getInterestForKeyword]
      split
      · simp
      · simp only [tsScoreFromValues]
        exact ⟨jsRound_clamp_nonneg _, jsRound_clamp_le _⟩

/--
C4 counterexample: the keyword `"bridal party"` has no exact table entry
and contains both a bridal cue and a party cue, yet `getOccasion` returns
`"birthday party"`, because in the source the party rule (line 291) is
checked before the bridal rule (line 292).
-/
theorem getOccasion_bridal_party_counterexample :
    OCCASION_MAP.lookup (jsToLower "bridal party") = none
    ∧ jsIncludes (jsToLower "bridal party") "bridal" = true
    ∧ jsIncludes (jsToLower "bridal party") "party" = true
    ∧ getOccasion "bridal party" = "birthday party"
    ∧ getOccasion "bridal party" ≠ "marriage and bride" := by
  refine ⟨by decide, by decide, by decide, by decide, by decide⟩

/--
C4 (amended): generic party detection outranks bridal detection — for
every keyword with no exact table entry that contains both a bridal cue
and a party cue and misses the two earlier rules (work, gym), `getOccasion`
returns `"birthday party"`, not `"marriage and bride"`.
-/
theorem getOccasion_party_outranks_bridal :
    ∀ kw, OCCASION_MAP.lookup (jsToLower kw) = none →
      (jsIncludes (jsToLower kw) "bridal" || jsIncludes (jsToLower kw) "bride"
        || jsIncludes (jsToLower kw) "marriage") = true →
      (jsIncludes (jsToLower kw) "party" || jsIncludes (jsToLower kw) "sequin"
        || jsIncludes (jsToLower kw) "glitter") = true →
      (jsIncludes (jsToLower kw) "blazer" || jsIncludes (jsToLower kw) "trousers"
        || jsIncludes (jsToLower kw) "office") = false →
      (jsIncludes (jsToLower kw) "jogger" || jsIncludes (jsToLower kw) "athleisure"
        || jsIncludes (jsToLower kw) "sport") = false →
      getOccasion kw = "birthday party" := by
  intro kw h0 _hb hp hw hg
  simp only [getOccasion, h0, hp, hw, hg]
  simp

/-- C4 witness: the amended rule applied at `"bridal party"`. -/
theorem getOccasion_party_outranks_bridal_witness :
    getOccasion "bridal party" = "birthday party" :=
  getOccasion_party_outranks_bridal "bridal party" (by decide) (by decide) (by decide)
    (by decide) (by decide)

/--
C5: `getOccasion` performs the exact case-insensitive table lookup first
and returns the entry when present; the substring fallback applies only
when the lookup misses, and when additionally no fallback cue occurs in
the keyword the result is `"casual"`; in particular `"bridal gown"` maps
to `"marriage and bride"` through the table even though the `"bridal"`
fallback cue also matches.
-/
theorem getOccasion_table_first :
    (∀ kw v, OCCASION_MAP.lookup (jsToLower kw) = some v → getOccasion kw = v)
    ∧ (∀ kw, OCCASION_MAP.lookup (jsToLower kw) = none →
        (∀ c ∈ FALLBACK_CUES, jsIncludes (jsToLower kw) c = false) →
        getOccasion kw = "casual")
    ∧ getOccasion "bridal gown" = "marriage and bride"
    ∧ OCCASION_MAP.lookup (jsToLower "bridal gown") = some "marriage and bride"
    ∧ jsIncludes (jsToLower "bridal gown") "bridal" = true := by
  refine ⟨?_, ?_, by decide, by decide, by decide⟩
  · intro kw v h
    simp [getOccasion, h]
  · intro kw h0 hc
    simp only [getOccasion, h0,
      hc "blazer" (by decide), hc "trousers" (by decide), hc "office" (by decide),
      hc "jogger" (by decide), hc "athleisure" (by decide), hc "sport" (by decide),
      hc "party" (by decide), hc "sequin" (by decide), hc "glitter" (by decide),
      hc "bridal" (by decide), hc "bride" (by decide), hc "marriage" (by decide),
      hc "lehenga" (by decide), hc "saree" (by decide),
      hc "formal" (by decide), hc "elegant" (by decide),
      hc "beach" (by decide), hc "vacation" (by decide), hc "resort" (by decide),
      hc "brunch" (by decide), hc "cafe" (by decide), hc "sunday" (by decide),
      hc "festival" (by decide), hc "concert" (by decide), hc "boho" (by decide),
      hc "date" (by decide), hc "night" (by decide), hc "dinner" (by decide)]
    simp

/-- C5 witness: a table hit (`"bridal gown"`) and a no-cue default (`"red scarf"`). -/
theorem getOccasion_table_first_witness :
    getOccasion "bridal gown" = "marriage and bride" ∧ getOccasion "red scarf" = "casual" :=
  ⟨getOccasion_table_first.1 "bridal gown" "marriage and bride" (by decide),
   getOccasion_table_first.2.1 "red scarf" (by decide) (by decide)⟩

/--
C6 counterexample: a flat-shape entry with a negative `value` field is
dropped by the final filter rather than coerced to 0, shrinking the
sample count (series `[10, −5]` extracts to `[10]`, not `[10, 0]`);
likewise a nested negative value is dropped by `trendsService.js`.
-/
theorem extraction_flat_drop_counterexample :
    gtValues [Entry.flat (some (some 10)) none, Entry.flat (some (some (-5))) none] = [10]
    ∧ (gtValues [Entry.flat (some (some 10)) none,
        Entry.flat (some (some (-5))) none]).length ≠ 2
    ∧ tsValues [Entry.nested (some (some (-7))) none] = [] := by
  refine ⟨by decide, by decide, by decide⟩

/--
C6 (amended): only nested-shape entries are coerced and kept by
`generateTrends.js` (NaN → 0, negatives clamped to 0, preserving the
sample count for that shape); in `trendsService.js` nested NaN becomes 0
but nested negatives are dropped; flat-shape non-numeric or negative
entries are dropped from the series in both variants (reducing the sample
count); dropping is per-entry — the remainder of the series is retained,
never the whole series rejected.
-/
theorem extraction_coercion_amended :
    (∀ ex v rest, gtValues (Entry.nested ex v :: rest) = nestedCoerceGT ex v :: gtValues rest)
    ∧ (∀ (q : ℚ) rest, q < 0 → gtValues (Entry.flat (some (some q)) none :: rest) = gtValues rest)
    ∧ (∀ (q : ℚ) rest, q < 0 → gtValues (Entry.flat none (some (some q)) :: rest) = gtValues rest)
    ∧ (∀ rest, gtValues (Entry.flat (some none) none :: rest) = gtValues rest)
    ∧ (∀ e rest, gtValues (e :: rest) = gtValues [e] ++ gtValues rest)
    ∧ (∀ v rest, tsValues (Entry.nested (some none) v :: rest) = 0 :: tsValues rest)
    ∧ (∀ (q : ℚ) v rest, q < 0 → tsValues (Entry.nested (some (some q)) v :: rest) = tsValues rest)
    ∧ (∀ entries : List Entry, (gtValues entries).length ≤ entries.length) := by
  have hsplit : ∀ e rest, gtValues (e :: rest) = gtValues [e] ++ gtValues rest := by
    intro e rest
    simp only [gtValues, List.map_cons, List.filterMap_cons, List.map_nil, List.filterMap_nil]
    rcases h : gtMapEntry e with _ | q
    · simp
    · by_cases hq : 0 ≤ q <;> simp [hq]
  have hone : ∀ e, (gtValues [e]).length ≤ 1 := by
    intro e
    simp only [gtValues, List.map_cons, List.filterMap_cons, List.map_nil, List.filterMap_nil]
    rcases gtMapEntry e with _ | q
    · simp
    · by_cases hq : 0 ≤ q <;> simp [hq]
  refine ⟨?_, ?_, ?_, ?_, hsplit, ?_, ?_, ?_⟩
  · intro ex v rest
    rcases ex with _ | (_ | q)
    · rcases v with _ | (_ | q) <;>
        simp [gtValues, gtMapEntry, nestedCoerceGT, le_max_left]
    · simp [gtValues, gtMapEntry, nestedCoerceGT]
    · simp [gtValues, gtMapEntry, nestedCoerceGT, le_max_left]
  · intro q rest hq
    simp [gtValues, gtMapEntry, not_le.mpr hq]
  · intro q rest hq
    simp [gtValues, gtMapEntry, not_le.mpr hq]
  · intro rest
    simp [gtValues, gtMapEntry]
  · intro v rest
    simp [tsValues, tsMapEntry]
  · intro q v rest hq
    simp [tsValues, tsMapEntry, not_le.mpr hq]
  · intro entries
    induction entries with
    | nil => simp [gtValues]
    | cons e rest ih =>
      rw [hsplit]
      have := hone e
      simp only [List.length_append, List.length_cons]
      omega

/-- C6 witness: a negative flat entry dropped, series otherwise retained. -/
theorem extraction_coercion_amended_witness :
    gtValues [Entry.flat (some (some (-5))) none] = gtValues [] :=
  extraction_coercion_amended.2.1 (-5) [] (by norm_num)

/--
C7: `getSeason` returns the first season in declaration order (summer,
winter, fall, spring) whose cue list has a substring match in the
lowercased keyword, and otherwise falls back to the 0-indexed evaluation
month (2–4 spring, 5–7 summer, 8–10 fall, else winter); as a function of
keyword and month it is deterministic by construction. The keyword
`"beach boots"` matches both a summer cue and a winter cue and resolves
to `"summer"` for every month, witnessing the declaration order.
-/
theorem getSeason_spec :
    (∀ kw month, getSeason kw month =
        match SEASON_KEYWORDS.find? (fun p => p.2.any fun t => jsIncludes (jsToLower kw) t) with
        | some p => p.1
        | none => monthSeason month)
    ∧ (∀ month, 2 ≤ month → month ≤ 4 → monthSeason month = "spring")
    ∧ (∀ month, 5 ≤ month → month ≤ 7 → monthSeason month = "summer")
    ∧ (∀ month, 8 ≤ month → month ≤ 10 → monthSeason month = "fall")
    ∧ (∀ month : ℕ, month < 2 ∨ 10 < month → monthSeason month = "winter")
    ∧ (∀ month, getSeason "beach boots" month = "summer") := by
  refine ⟨?_, ?_, ?_, ?_, ?_, ?_⟩
  · intro kw month
    simp only [getSeason, seasonScan_eq_find]
    cases h : SEASON_KEYWORDS.find? fun p => p.2.any fun t => jsIncludes (jsToLower kw) t <;>
      simp [h]
  · intro month h1 h2
    simp only [monthSeason]
    rw [if_pos ⟨h1, h2⟩]
  · intro month h1 h2
    simp only [monthSeason]
    rw [if_neg (by omega), if_pos ⟨h1, h2⟩]
  · intro month h1 h2
    simp only [monthSeason]
    rw [if_neg (by omega), if_neg (by omega), if_pos ⟨h1, h2⟩]
  · intro month h
    simp only [monthSeason]
    rw [if_neg (by omega), if_neg (by omega), if_neg (by omega)]
  · intro month
    have h : seasonScan (jsToLower "beach boots") SEASON_KEYWORDS = some "summer" := by decide
    simp [getSeason, h]

/-- C7 witness: the calendar fallback evaluated at one month per band. -/
theorem getSeason_spec_witness :
    monthSeason 3 = "spring" ∧ monthSeason 6 = "summer"
    ∧ monthSeason 9 = "fall" ∧ monthSeason 0 = "winter" :=
  ⟨getSeason_spec.2.1 3 (by norm_num) (by norm_num),
   getSeason_spec.2.2.1 6 (by norm_num) (by norm_num),
   getSeason_spec.2.2.2.1 9 (by norm_num) (by norm_num),
   getSeason_spec.2.2.2.2.1 0 (Or.inl (by norm_num))⟩

/--
C9: an empty timeline, or any timeline whose extracted value series is
empty after coercion/filtering, yields the zero record
(`averageInterest = 0`, `trendSlope = 0`, `score = 0`); no value is ever
divided by the empty count.
-/
theorem emptySeries_zeroRecord :
    (∀ kw, fetchMetricsFromTimeline kw [] = zeroMetrics kw)
    ∧ (∀ kw timeline, gtValues timeline = [] →
        fetchMetricsFromTimeline kw timeline = zeroMetrics kw) := by
  constructor
  · intro kw
    simp [fetchMetricsFromTimeline]
  · intro kw timeline h
    simp only [fetchMetricsFromTimeline]
    split
    · rfl
    · simp [fetchMetricsFromValues, h]

/-- C9 witness: an all-invalid (negative) series yields the zero record. -/
theorem emptySeries_zeroRecord_witness :
    fetchMetricsFromTimeline "cargo skirt" [Entry.flat (some (some (-3))) none]
      = zeroMetrics "cargo skirt" :=
  emptySeries_zeroRecord.2 "cargo skirt" [Entry.flat (some (some (-3))) none] (by decide)

/--
C10: the `trendsService.js` scorer ranks by peak interest — for a
non-empty extracted series the score is
`round(min(100, max(0, maximum of the values)))`, where `jsMaxList` is
proved to be the maximum (a member that bounds every member), and an
empty series scores 0; the concrete series `[10, 20, 90]` scores 90
here, while the avg+slope scorer gives 100 and the rounded average is
40, so this variant is neither of those.
-/
theorem getInterest_peak_score :
    (∀ values : List ℚ, values ≠ [] →
      tsScoreFromValues values = jsRound (min 100 (max 0 (jsMaxList values)))
      ∧ jsMaxList values ∈ values
      ∧ ∀ v ∈ values, v ≤ jsMaxList values)
    ∧ tsScoreFromValues [] = 0
    ∧ (∀ kw (timeline : List Entry), timeline ≠ [] →
        getInterestForKeyword kw (Except.ok timeline)
          = ⟨kw, tsScoreFromValues (tsValues timeline)⟩)
    ∧ (∀ kw, getInterestForKeyword kw (Except.ok []) = ⟨kw, 0⟩)
    ∧ tsScoreFromValues [10, 20, 90] = 90
    ∧ gtScore [10, 20, 90] = 100
    ∧ jsRound (gtAverageInterest [10, 20, 90]) = 40 := by
  refine ⟨?_, ?_, ?_, ?_, ?_, ?_, ?_⟩
  · intro values h
    exact ⟨rfl, jsMaxList_mem values h, fun v hv => le_jsMaxList values v hv⟩
  · simp [tsScoreFromValues, jsMaxList, jsRound]
    norm_num
  · intro kw tl h
    have hlen : ¬ tl.length = 0 := fun hl => h (List.length_eq_zero.mp hl)
    simp [getInterestForKeyword, hlen]
  · intro kw
    simp [getInterestForKeyword]
  · simp [tsScoreFromValues, jsMaxList, jsRound]
    norm_num
  · simp [gtScore, gtAverageInterest, gtTrendSlope, jsRound]
    norm_num
  · simp [gtAverageInterest, jsRound]
    norm_num

/-- C10 witness: the peak characterization applied at `[10, 20, 90]`. -/
theorem getInterest_peak_score_witness :
    jsMaxList [(10 : ℚ), 20, 90] ∈ [(10 : ℚ), 20, 90] :=
  (getInterest_peak_score.1 [10, 20, 90] (by decide)).2.1

/--
C8: in threshold mode every output item of `getValidatedTrends` has
`score ≥ threshold` (so below-threshold candidates appear nowhere), the
output is sorted by score descending, and candidates with equal scores
keep their relative input order (stability, stated as: the output
restricted to any one score equals the filtered input restricted to that
score).
-/
theorem getValidatedTrends_threshold :
    ∀ (keywords : List String) (fetch : String → Except String (List Entry)) (threshold : ℤ),
      (∀ r ∈ getValidatedTrends keywords fetch threshold, threshold ≤ r.score)
      ∧ (getValidatedTrends keywords fetch threshold).Pairwise (fun a b => b.score ≤ a.score)
      ∧ ∀ s : ℤ, (getValidatedTrends keywords fetch threshold).filter (fun r => r.score == s)
          = ((keywords.map fun kw => getInterestForKeyword kw (fetch kw)).filter
              fun r => threshold ≤ r.score).filter (fun r => r.score == s) := by
  intro keywords fetch threshold
  refine ⟨?_, ?_, ?_⟩
  · intro r hr
    simp only [getValidatedTrends] at hr
    have hr' := (sortScoreDesc_perm TrendResult.score _).mem_iff.mp hr
    have hcond := (List.mem_filter.mp hr').2
    exact of_decide_eq_true hcond
  · simp only [getValidatedTrends]
    exact sortScoreDesc_pairwise _ _
  · intro s
    simp only [getValidatedTrends]
    exact sortScoreDesc_filter_score _ s _

/-- C8 witness: a zero-threshold singleton run containing its only candidate. -/
theorem getValidatedTrends_threshold_witness :
    (0 : ℤ) ≤ (TrendResult.mk "romper" 0).score :=
  (getValidatedTrends_threshold ["romper"] (fun _ => Except.error "rate limit") 0).1
    ⟨"romper", 0⟩ (by decide)

/--
C3: in always-emit mode the final output has exactly one record per
keyword of the configured universe (stated as: restricting the output to
one keyword yields exactly the singleton of that keyword's fetched
record), and when the per-keyword fetch rejects, that record is the zero
record (score 0, averageInterest 0, trendSlope 0) rather than being
omitted; no rejection aborts the batch, `mainToOutput` being total in the
fetch outcome.
-/
theorem mainOutput_always_emit :
    ∀ fetchResult : String → Except String (List Entry),
      (mainToOutput fetchResult).length = KEYWORDS.length
      ∧ ∀ kw ∈ KEYWORDS,
          (mainToOutput fetchResult).filter (fun m => m.keyword == kw)
            = [fetchTrendMetrics kw (fetchResult kw)]
          ∧ ∀ e, fetchResult kw = Except.error e →
              (mainToOutput fetchResult).filter (fun m => m.keyword == kw)
                = [zeroMetrics kw] := by
  intro fetchResult
  have hnd : KEYWORDS.Nodup := by decide
  set f : String → Metrics := fun kw => fetchTrendMetrics kw (fetchResult kw) with hfdef
  have hf : ∀ k, (f k).keyword = k := fun k => fetchTrendMetrics_keyword k (fetchResult k)
  have htoOut : (KEYWORDS.map fun kw => (mapGet (KEYWORDS.map f) kw).getD (zeroMetrics kw))
      = KEYWORDS.map f := by
    apply List.map_congr_left
    intro kw hkw
    rw [mapGet_map_mem KEYWORDS f hf hnd kw hkw]
    rfl
  have hmain : mainToOutput fetchResult = sortScoreDesc Metrics.score (KEYWORDS.map f) := by
    simp only [mainToOutput]
    rw [htoOut]
  constructor
  · rw [hmain, (sortScoreDesc_perm Metrics.score (KEYWORDS.map f)).length_eq, List.length_map]
  · intro kw hkw
    have hfilter : (KEYWORDS.map f).filter (fun m => m.keyword == kw) = [f kw] := by
      rw [List.filter_map]
      have hpf : ((fun m : Metrics => m.keyword == kw) ∘ f) = fun k => k == kw := by
        funext k
        simp [Function.comp, hf k]
      rw [hpf]
      have hcount : KEYWORDS.count kw = 1 := List.count_eq_one_of_mem hnd hkw
      rw [List.filter_beq, hcount]
      simp
    have hsorted : (sortScoreDesc Metrics.score (KEYWORDS.map f)).filter
        (fun m => m.keyword == kw) = [f kw] := by
      have hp := (sortScoreDesc_perm Metrics.score (KEYWORDS.map f)).filter
        (fun m => m.keyword == kw)
      rw [hfilter] at hp
      exact hp.eq_singleton
    rw [hmain]
    refine ⟨hsorted, ?_⟩
    intro e he
    have hz : f kw = zeroMetrics kw := by
      show fetchTrendMetrics kw (fetchResult kw) = zeroMetrics kw
      rw [he]
      rfl
    rw [hsorted, hz]

set_option maxRecDepth 8192 in
/-- C3 witness: a failing fetch for `"mom jeans"` still yields its zero record. -/
theorem mainOutput_always_emit_witness :
    List.filter (fun m => m.keyword == "mom jeans")
      (mainToOutput fun kw =>
        if kw == "mom jeans" then Except.error "socket hang up" else Except.ok [])
      = [zeroMetrics "mom jeans"] :=
  ((mainOutput_always_emit _).2 "mom jeans" (by decide)).2 "socket hang up" rfl
